import Mathlib

/-!
Shallow embedding of the core of the WhatStillOpenSydney repository:
the Hours Engine (`src/lib/time.ts` and `src/lib/closeTime.ts`) and the
Ranking Engine (scoring, top-quartile selection and itinerary composition
from the home page module).

Modelling conventions, fixed once for the whole file:

* JavaScript numbers that arise from parsing `"HH:MM"` time strings are
  integers or `NaN`; they are modelled as `Option Int` (`none` = `NaN`),
  with the JS comparison operators returning `false` whenever one side is
  `NaN` and arithmetic propagating `NaN`.
* A time string `"HH:MM"` is modelled at the point the code observes it:
  after `split(":")` and `Number(...)` on the two parts.  The `Number`
  builtin itself is not re-modelled; a malformed (non-numeric) part is
  represented by `none`.
* A JS `Date` is modelled as an integer count of minutes (the code only
  ever reads a date at minute resolution: `getHours() * 60 + getMinutes()`,
  and all written times have zero seconds and milliseconds).  The epoch
  (minute 0) is placed at 00:00 of a Sunday, so that `getDay()` becomes
  day-index mod 7 with 0 = Sunday, exactly the JS convention.  There are
  no timezone or DST conversions in the source (spec: "all times are local
  wall-clock"), so adding one calendar day is adding 1440 minutes.
* JS float arithmetic in the scoring functions is modelled as exact
  rational arithmetic over `ℚ`.
* `Math.random()` results are passed in as explicit `ℚ` parameters; the JS
  contract `0 ≤ r < 1` appears as a hypothesis where needed.
-/

/-- A JavaScript number restricted to integer precision; `none` stands for
`NaN`. -/
abbrev JNum := Option Int

/-- JS `===` on numbers: `false` when either side is `NaN`. -/
def jeq (a b : JNum) : Bool :=
  match a, b with
  | some x, some y => x == y
  | _, _ => false

/-- JS `<` on numbers: `false` when either side is `NaN`. -/
def jlt (a b : JNum) : Bool :=
  match a, b with
  | some x, some y => decide (x < y)
  | _, _ => false

/-- JS `<=` on numbers: `false` when either side is `NaN`. -/
def jle (a b : JNum) : Bool :=
  match a, b with
  | some x, some y => decide (x ≤ y)
  | _, _ => false

/-- JS `>` on numbers. -/
def jgt (a b : JNum) : Bool := jlt b a

/-- JS `>=` on numbers. -/
def jge (a b : JNum) : Bool := jle b a

/-- JS `+` on numbers, propagating `NaN`. -/
def jadd (a b : JNum) : JNum :=
  match a, b with
  | some x, some y => some (x + y)
  | _, _ => none

/-- JS `*` on numbers, propagating `NaN`. -/
def jmul (a b : JNum) : JNum :=
  match a, b with
  | some x, some y => some (x * y)
  | _, _ => none

/-- A wall-clock time string `"HH:MM"`, seen as the code sees it after
`hhmm.split(":")` and `Number(...)` on each part: `h` and `m` are the two
numeric values, `none` standing for `NaN` (a non-numeric part). -/
structure TimeStr where
  h : JNum
  m : JNum
deriving DecidableEq, Repr

/-- Convenience constructor for a well-formed time string, used only to
build concrete test data. -/
def hm (h m : Int) : TimeStr := ⟨some h, some m⟩

/-- `type DayKey = "mon" | ... | "sun"` from `src/lib/types.ts`. -/
inductive DayKey where
  | mon | tue | wed | thu | fri | sat | sun
deriving DecidableEq, Repr

/-- `type TimeRange = [string, string]` from `src/lib/types.ts`. -/
abbrev TimeRange := TimeStr × TimeStr

/-- `type Hours = Record<DayKey, TimeRange[]>` from `src/lib/types.ts`:
an object with the seven weekday keys. -/
structure Hours where
  mon : List TimeRange
  tue : List TimeRange
  wed : List TimeRange
  thu : List TimeRange
  fri : List TimeRange
  sat : List TimeRange
  sun : List TimeRange
deriving DecidableEq, Repr

/-- The property access `hours[day]` on an `Hours` record. -/
def Hours.get (hrs : Hours) : DayKey → List TimeRange
  | .mon => hrs.mon
  | .tue => hrs.tue
  | .wed => hrs.wed
  | .thu => hrs.thu
  | .fri => hrs.fri
  | .sat => hrs.sat
  | .sun => hrs.sun

/-!
A JS `Date` is a plain `Int`: total minutes since a Sunday-00:00 epoch
(see the header).  Division is Euclidean (Lean's `Int` `/` and `%`),
which agrees with JS floor division for the positive constants used.
-/

/-- 00:00 of the calendar day containing `d`. -/
def dayStart (d : Int) : Int := (d / 1440) * 1440

/-- `getHours() * 60 + getMinutes()`: minutes since midnight, in
`[0, 1440)`. -/
def minutesOfDay (d : Int) : Int := d % 1440

/-- JS `Date.prototype.getDay`: 0 = Sunday, ..., 6 = Saturday. -/
def jsGetDay (d : Int) : Int := (d / 1440) % 7

/-- `dayKeyFromDate` from `src/lib/time.ts` / `src/lib/closeTime.ts`:
`["sun","mon","tue","wed","thu","fri","sat"][d.getDay()]`.  `getDay()` is
always in `0..6`, so the out-of-range fallback (`?? "mon"` in
`closeTime.ts`) is unreachable. -/
def dayKeyFromDate (d : Int) : DayKey :=
  match (jsGetDay d).toNat with
  | 0 => .sun
  | 1 => .mon
  | 2 => .tue
  | 3 => .wed
  | 4 => .thu
  | 5 => .fri
  | 6 => .sat
  | _ => .mon

/-- The `order` array of `prevDayKey` in `src/lib/time.ts`. -/
def dayOrder : List DayKey := [.mon, .tue, .wed, .thu, .fri, .sat, .sun]

/-- `prevDayKey` from `src/lib/time.ts`:
`order[(idx - 1 + order.length) % order.length]` (for `idx ∈ 0..6`,
`idx - 1 + 7` is the non-negative `idx + 6`). -/
def prevDayKey (day : DayKey) : DayKey :=
  let idx := dayOrder.indexOf day
  (dayOrder.getD ((idx + dayOrder.length - 1) % dayOrder.length) .mon)

/-- `minutesFromHHMM` from `src/lib/time.ts`: `h * 60 + m` on the two
`Number(...)` results, `NaN` if either part is `NaN`. -/
def minutesFromHHMM (t : TimeStr) : JNum :=
  jadd (jmul t.h (some 60)) t.m

/-- The per-window test of the loop body of `isOpenInRanges` in
`src/lib/time.ts` (the `if (ranges.length === 0) continue` line there is
dead code inside the loop and contributes nothing):
a window with `close === open` is skipped ("treat as closed"); a window
with `close > open` is a same-day window (`open ≤ minutes < close`); any
other window is taken as cross-midnight (`minutes ≥ open`). -/
def rangeOpenTest (r : TimeRange) (minutes : Int) : Bool :=
  let o := minutesFromHHMM r.1
  let c := minutesFromHHMM r.2
  if jeq c o then false
  else if jgt c o then jge (some minutes) o && jlt (some minutes) c
  else jge (some minutes) o

/-- `isOpenInRanges` from `src/lib/time.ts`: `true` as soon as one window
of the list passes its test. -/
def isOpenInRanges (ranges : List TimeRange) (minutes : Int) : Bool :=
  ranges.any (fun r => rangeOpenTest r minutes)

/-- The per-window test of the previous-day loop of `isVenueOpenAt` in
`src/lib/time.ts`: a previous-day window spills into today when
`close < open` and `minutes < close`. -/
def spillTest (r : TimeRange) (minutes : Int) : Bool :=
  let o := minutesFromHHMM r.1
  let c := minutesFromHHMM r.2
  jlt c o && jlt (some minutes) c

/-- The previous-day spillover loop of `isVenueOpenAt` in
`src/lib/time.ts`: `true` as soon as one window spills. -/
def spilloverOpen (ranges : List TimeRange) (minutes : Int) : Bool :=
  ranges.any (fun r => spillTest r minutes)

/-- `isVenueOpenAt` from `src/lib/time.ts`: check today's windows, then
the previous day's cross-midnight spillover. -/
def isVenueOpenAt (hours : Hours) (atd : Int) : Bool :=
  let day := dayKeyFromDate atd
  let minutes := minutesOfDay atd
  if isOpenInRanges (hours.get day) minutes then true
  else spilloverOpen (hours.get (prevDayKey day)) minutes

/-- `parseHHMM` from `src/lib/closeTime.ts`: `null` unless both parts are
finite numbers. -/
def parseHHMM (t : TimeStr) : Option (Int × Int) :=
  match t.h, t.m with
  | some h, some m => some (h, m)
  | _, _ => none

/-- `withTime` from `src/lib/closeTime.ts`: the instant of day of `base`
at time `hhmm` (seconds zeroed; `24:00` is the following midnight;
`setHours` with out-of-range values rolls over into adjacent days, which
is `dayStart + h * 60 + m`). -/
def withTime (base : Int) (t : TimeStr) : Option Int :=
  match parseHHMM t with
  | none => none
  | some (h, m) =>
    if h = 24 ∧ m = 0 then some (dayStart base + 1440)
    else some (dayStart base + h * 60 + m)

/-- `isWithinRange` from `src/lib/closeTime.ts`. -/
def isWithinRange (atd s e : Int) : Bool :=
  decide (s ≤ atd) && decide (atd < e)

/-- One iteration of the loop of `getVenueCloseAt` in
`src/lib/closeTime.ts`: `continue` (here `none`) when a bound fails to
parse, push the close to the next day when `close <= open`, and return
the close when the instant lies in the window. -/
def closeForRange (atd : Int) (r : TimeRange) : Option Int :=
  match withTime atd r.1 with
  | none => none
  | some o =>
    match withTime atd r.2 with
    | none => none
    | some c0 =>
      let c := if c0 ≤ o then c0 + 1440 else c0
      if isWithinRange atd o c then some c else none

/-- `getVenueCloseAt` from `src/lib/closeTime.ts` (the home page module
carries an identical local copy): the close instant of the first of
today's windows containing `atd`, else `null`.  Note that, unlike
`isVenueOpenAt`, it never looks at the previous day's windows. -/
def getVenueCloseAt (hours : Hours) (atd : Int) : Option Int :=
  let day := dayKeyFromDate atd
  let ranges := hours.get day
  ranges.findSome? (closeForRange atd)

/-- `type Category` from `src/lib/types.ts`. -/
inductive Category where
  | Restaurant | Cafe | Dessert | Activity | Bar
deriving DecidableEq, Repr

/-- `type Venue` from `src/lib/types.ts`.  `hours` is declared required
there but `scoreVenue` guards it with `if (v.hours)` (a venue may reach
scoring without schedule data), hence `Option`.  `onEatClub?: boolean` is
optional and only ever read in boolean position, where `undefined` and
`false` coincide, hence `Bool`.  `eatClubUrl` and `photoName` are carried
for completeness but never read by the core. -/
structure Venue where
  id : String
  name : String
  category : Category
  suburb : String
  website : String
  bookingUrl : Option String
  hours : Option Hours
  photoName : Option String := none
  onEatClub : Bool := false
  eatClubUrl : Option String := none
deriving DecidableEq, Repr

/-- `clamp01` from the home page module. -/
def clamp01 (x : ℚ) : ℚ := max 0 (min 1 x)

/-- ASCII whitespace as trimmed by JS `String.prototype.trim` (JS also
trims further Unicode whitespace; only these occur in this development). -/
def jsWhitespace (c : Char) : Bool :=
  c == ' ' || c == '\t' || c == '\n' || c == '\r'

/-- JS `String.prototype.trim`: drop leading and trailing whitespace. -/
def jsTrim (s : String) : String :=
  ⟨((s.data.dropWhile jsWhitespace).reverse.dropWhile jsWhitespace).reverse⟩

/-- JS `Boolean(s && s.trim().length)` for a string `s`: an empty string
is falsy, otherwise the trimmed length must be non-zero. -/
def nonBlank (s : String) : Bool :=
  if s == "" then false else (jsTrim s).length != 0

/-- `scoreVenue` from the home page module.  `Math.floor((closeAt -
atDate) / 60000)` is the exact minute difference in this minute-resolution
model.  The weights `wOpen = 0.6`, `wEat = 0.25`, `wAction = 0.15` and the
4-hour cap `240` are the source's literals. -/
def scoreVenue (v : Venue) (atDate : Int) : ℚ :=
  let openNorm : ℚ :=
    match v.hours with
    | none => 0.5
    | some hrs =>
      match getVenueCloseAt hrs atDate with
      | some closeAt => clamp01 (((max 0 (closeAt - atDate) : Int) : ℚ) / 240)
      | none => 0
  let eatClubNorm : ℚ := if v.onEatClub then 1 else 0
  let hasWebsite : Bool := nonBlank v.website
  let hasBooking : Bool :=
    match v.bookingUrl with
    | none => false
    | some s => nonBlank s
  let actionNorm : ℚ :=
    clamp01 (((if hasWebsite then 1 else 0) + (if hasBooking then 1 else 0)) / 2)
  0.6 * openNorm + 0.25 * eatClubNorm + 0.15 * actionNorm

/-- `pickRandom` from the home page module:
`arr[Math.floor(Math.random() * arr.length)]`, with the random draw `rnd`
passed in explicitly and an out-of-bounds access giving `undefined`
(`none`). -/
def pickRandom {α : Type} (arr : List α) (rnd : ℚ) : Option α :=
  arr[(⌊rnd * (arr.length : ℚ)⌋).toNat]?

/-- The sort step of `pickFromTopScored`:
`list.map(v => ({ v, s: scoreVenue(v, atDate) })).sort((a, b) => b.s - a.s)`.
JS `Array.prototype.sort` is stable, and with the comparator `b.s - a.s`
its output is the descending-by-score reordering that keeps original
order on ties; a stable sort's output is determined by the comparator
alone, so insertion sort (which is stable for this relation) computes the
same list. -/
def scoredSorted (list : List Venue) (atDate : Int) : List (Venue × ℚ) :=
  (list.map (fun v => (v, scoreVenue v atDate))).insertionSort
    (fun a b => b.2 ≤ a.2)

/-- `Math.max(1, Math.ceil(len * topFraction))` from `pickFromTopScored`
(for a negative product, JS takes `max(1, ·)` of a non-positive ceiling
and `Int.toNat` of a negative is `0`: both give `1`). -/
def topCount (len : Nat) (topFraction : ℚ) : Nat :=
  max 1 (⌈(len : ℚ) * topFraction⌉).toNat

/-- `scored.slice(0, n).map(x => x.v)` from `pickFromTopScored`. -/
def topScored (list : List Venue) (atDate : Int) (topFraction : ℚ) : List Venue :=
  ((scoredSorted list atDate).take (topCount list.length topFraction)).map Prod.fst

/-- `pickFromTopScored` from the home page module (its `topFraction`
default is `0.25`; every call site passes `0.25` explicitly). -/
def pickFromTopScored (list : List Venue) (atDate : Int) (topFraction : ℚ)
    (rnd : ℚ) : Option Venue :=
  pickRandom (topScored list atDate topFraction) rnd

/-- The two-line pool-narrowing pattern repeated for the Activity and Bar
picks in `planMyNight`:
`const noDup = pool.filter(v => !used.has(v.id));`
`const narrowed = noDup.length ? noDup : pool;`
(the `used` set is the list of previously picked ids). -/
def noDupPool (pool : List Venue) (used : List String) : List Venue :=
  let noDup := pool.filter (fun v => !(used.contains v.id))
  if noDup.length != 0 then noDup else pool

/-- The itinerary-composition core of `planMyNight` in the home page
module.  The three pools arrive already fetched and EatClub-enriched
(both external collaborators; enrichment only rewrites `onEatClub` /
`eatClubUrl` fields and preserves pool length and ids, so the emptiness
guard on the raw pools is the emptiness guard on these pools).  The three
`Math.random()` draws are `r1, r2, r3`.  An empty pool aborts the whole
request with an error and no plan (`none`); the unreachable `undefined`
picks (pools are non-empty at each pick site) are also `none`. -/
def planMyNight (restaurants activities bars : List Venue) (atDate : Int)
    (r1 r2 r3 : ℚ) : Option (Venue × Venue × Venue) :=
  if restaurants.length == 0 || activities.length == 0 || bars.length == 0 then
    none
  else
    match pickFromTopScored restaurants atDate 0.25 r1 with
    | none => none
    | some restaurant =>
      match pickFromTopScored (noDupPool activities [restaurant.id]) atDate 0.25 r2 with
      | none => none
      | some activity =>
        match pickFromTopScored (noDupPool bars [restaurant.id, activity.id]) atDate 0.25 r3 with
        | none => none
        | some bar => some (restaurant, activity, bar)


/-! ### Basic facts about the date model -/

theorem dayStart_add_minutesOfDay (d : Int) : dayStart d + minutesOfDay d = d := by
  have h := Int.ediv_add_emod d 1440
  unfold dayStart minutesOfDay
  linarith

theorem minutesOfDay_nonneg (d : Int) : 0 ≤ minutesOfDay d := by
  unfold minutesOfDay
  omega

theorem minutesOfDay_lt (d : Int) : minutesOfDay d < 1440 := by
  unfold minutesOfDay
  omega

/-- `withTime` succeeds exactly when `minutesFromHHMM` does, and then
lands at that many minutes after the day start (the `24:00` special case
coincides with the roll-over arithmetic, since `24 * 60 + 0 = 1440`). -/
theorem withTime_eq (base : Int) (t : TimeStr) :
    withTime base t = (minutesFromHHMM t).map (fun v => dayStart base + v) := by
  rcases t with ⟨h, m⟩
  cases h with
  | none => rfl
  | some hv =>
    cases m with
    | none => rfl
    | some mv =>
      simp only [withTime, parseHHMM, minutesFromHHMM, jadd, jmul, Option.map_some]
      split
      · rename_i hsp
        obtain ⟨h24, m0⟩ := hsp
        subst h24; subst m0
        norm_num
      · show some (dayStart base + hv * 60 + mv) = some (dayStart base + (hv * 60 + mv))
        rw [add_assoc]

/-! ### Agreement of the two engines on well-formed windows -/

/-- A window both of whose bounds parse to non-negative minute values,
with open ≠ close. -/
def wfRange (r : TimeRange) : Bool :=
  match minutesFromHHMM r.1, minutesFromHHMM r.2 with
  | some o, some c => decide (0 ≤ o) && decide (0 ≤ c) && !(o == c)
  | _, _ => false

/-- On a well-formed window, `getVenueCloseAt`'s per-window step finds a
close instant exactly when `isOpenInRanges`'s per-window test reports
open. -/
theorem closeForRange_isSome_iff (atd : Int) (r : TimeRange) (hr : wfRange r = true) :
    (closeForRange atd r).isSome = true ↔ rangeOpenTest r (minutesOfDay atd) = true := by
  rcases ho : minutesFromHHMM r.1 with _ | o
  · unfold wfRange at hr; rw [ho] at hr; simp at hr
  rcases hc : minutesFromHHMM r.2 with _ | c
  · unfold wfRange at hr; rw [ho, hc] at hr; simp at hr
  unfold wfRange at hr
  rw [ho, hc] at hr
  simp only [Bool.and_eq_true, decide_eq_true_eq, Bool.not_eq_true', beq_eq_false_iff_ne] at hr
  obtain ⟨⟨ho0, hc0⟩, hne⟩ := hr
  have h1 : withTime atd r.1 = some (dayStart atd + o) := by rw [withTime_eq, ho]; rfl
  have h2 : withTime atd r.2 = some (dayStart atd + c) := by rw [withTime_eq, hc]; rfl
  obtain ⟨ds, m, hds, hm0, hm1, hsum⟩ :
      ∃ ds m, dayStart atd = ds ∧ 0 ≤ m ∧ m < 1440 ∧ atd = ds + m :=
    ⟨dayStart atd, minutesOfDay atd, rfl, minutesOfDay_nonneg atd, minutesOfDay_lt atd,
      (dayStart_add_minutesOfDay atd).symm⟩
  have hmd : minutesOfDay atd = m := by
    have h := dayStart_add_minutesOfDay atd
    omega
  simp only [closeForRange, h1, h2, rangeOpenTest, ho, hc, jeq, jgt, jlt, jge, jle,
    isWithinRange, hds, hmd]
  rw [hsum]
  have hdz : ds % 1440 = 0 := by
    rw [← hds]; unfold dayStart; omega
  have hm2 : minutesOfDay (ds + m) = m := by
    unfold minutesOfDay; omega
  simp only [hm2, add_le_add_iff_left, add_assoc, add_lt_add_iff_left, beq_iff_eq,
    Bool.and_eq_true, decide_eq_true_eq]
  split_ifs <;>
    first
    | omega
    | (simp_all <;> omega)

/-- List version: over a day whose windows are all well-formed, the close
scan finds a window exactly when the open scan does (both are first-match
scans over the same list). -/
theorem findSome?_closeForRange_isSome_iff (atd : Int) (ranges : List TimeRange)
    (hwf : ∀ r ∈ ranges, wfRange r = true) :
    (ranges.findSome? (closeForRange atd)).isSome = true ↔
      isOpenInRanges ranges (minutesOfDay atd) = true := by
  induction ranges with
  | nil => simp [isOpenInRanges]
  | cons r rest ih =>
    have hr := hwf r (List.mem_cons_self r rest)
    have hrest : ∀ q ∈ rest, wfRange q = true := fun q hq => hwf q (List.mem_cons_of_mem r hq)
    have hhead := closeForRange_isSome_iff atd r hr
    rcases hcf : closeForRange atd r with _ | v
    · rw [hcf] at hhead
      simp only [Option.isSome_none, Bool.false_eq_true, false_iff] at hhead
      simp only [List.findSome?_cons, hcf, isOpenInRanges, List.any_cons]
      rw [isOpenInRanges] at ih
      simp only [Bool.or_eq_true, ih hrest]
      constructor
      · exact fun h => Or.inr h
      · rintro (h | h)
        · exact absurd h hhead
        · exact h
    · rw [hcf] at hhead
      simp only [Option.isSome_some, true_iff] at hhead
      simp only [List.findSome?_cons, hcf, isOpenInRanges, List.any_cons]
      simp [hhead]

/-! ### Concrete schedules used as test data -/

/-- A schedule with the single cross-midnight window 22:00-02:00 on
Monday (day index 1 of the Sunday-epoch week; Monday 23:30 is minute
`1440 + 1410 = 2850`, Tuesday 01:30 is `2 * 1440 + 90 = 2970`, Tuesday
02:01 is `3001`, Tuesday 02:00 is `3000`). -/
def spillHours : Hours := ⟨[(hm 22 0, hm 2 0)], [], [], [], [], [], []⟩

/-- A schedule with the single same-day window 18:00-23:00 on Monday. -/
def plainHours : Hours := ⟨[(hm 18 0, hm 23 0)], [], [], [], [], [], []⟩

/-- C1, counterexample.  At Tuesday 01:30 against a Monday 22:00-02:00
window the venue is open (previous-day spillover) but
`getVenueCloseAt` — which never scans the previous day — returns `null`,
so "closing instant is non-null iff open" fails at this input. -/
theorem C1_counterexample :
    ¬ ((getVenueCloseAt spillHours 2970 ≠ none) ↔ isVenueOpenAt spillHours 2970 = true) := by
  decide

/-- C1, amended.  If every window listed under the queried day is
well-formed (both bounds parse to non-negative minutes, open ≠ close) and
the instant is not open purely by the previous day's cross-midnight
spillover, then `getVenueCloseAt` returns a non-null closing instant
exactly when `isVenueOpenAt` returns true.  (The spillover proviso is
forced by `C1_counterexample`; the well-formedness proviso by the
equal-bounds and malformed-close behaviours established for C4 and
C5.) -/
theorem getVenueCloseAt_isSome_iff_isVenueOpenAt (hours : Hours) (atd : Int)
    (hwf : ∀ r ∈ hours.get (dayKeyFromDate atd), wfRange r = true)
    (hsp : spilloverOpen (hours.get (prevDayKey (dayKeyFromDate atd))) (minutesOfDay atd)
      = false) :
    ((getVenueCloseAt hours atd).isSome = true ↔ isVenueOpenAt hours atd = true) := by
  simp only [getVenueCloseAt, isVenueOpenAt]
  rw [findSome?_closeForRange_isSome_iff atd _ hwf]
  cases hb : isOpenInRanges (hours.get (dayKeyFromDate atd)) (minutesOfDay atd)
  · simp [hb, hsp]
  · simp [hb]

/-- C1, witness for the amended theorem at Monday 20:00 over a
well-formed Monday 18:00-23:00 schedule. -/
theorem getVenueCloseAt_isSome_iff_isVenueOpenAt_witness :
    ((getVenueCloseAt plainHours 2640).isSome = true ↔ isVenueOpenAt plainHours 2640 = true) :=
  getVenueCloseAt_isSome_iff_isVenueOpenAt plainHours 2640 (by decide) (by decide)

/-! ### Window-level surgery on schedules -/

/-- Apply a per-window filter to every day of a schedule. -/
def filterHours (p : TimeRange → Bool) (hrs : Hours) : Hours :=
  ⟨hrs.mon.filter p, hrs.tue.filter p, hrs.wed.filter p, hrs.thu.filter p,
    hrs.fri.filter p, hrs.sat.filter p, hrs.sun.filter p⟩

theorem filterHours_get (p : TimeRange → Bool) (hrs : Hours) (d : DayKey) :
    (filterHours p hrs).get d = (hrs.get d).filter p := by
  cases d <;> rfl

/-- Apply a per-window rewrite to every day of a schedule. -/
def mapHours (f : TimeRange → TimeRange) (hrs : Hours) : Hours :=
  ⟨hrs.mon.map f, hrs.tue.map f, hrs.wed.map f, hrs.thu.map f,
    hrs.fri.map f, hrs.sat.map f, hrs.sun.map f⟩

theorem mapHours_get (f : TimeRange → TimeRange) (hrs : Hours) (d : DayKey) :
    (mapHours f hrs).get d = (hrs.get d).map f := by
  cases d <;> rfl

/-- Filtering out windows on which a scan test is `false` anyway does not
change an `any` scan. -/
theorem any_filter_irrel {α : Type} (p q : α → Bool) (l : List α)
    (h : ∀ a, p a = false → q a = false) :
    (l.filter p).any q = l.any q := by
  induction l with
  | nil => rfl
  | cons a t ih =>
    rw [List.filter_cons]
    cases hp : p a
    · rw [if_neg (by simp [hp]), List.any_cons, h a hp, Bool.false_or, ih]
    · rw [if_pos rfl, List.any_cons, List.any_cons, ih]

/-- Filtering out windows on which a `findSome?` scan yields `none`
anyway does not change the scan. -/
theorem findSome?_filter_irrel {α β : Type} (p : α → Bool) (f : α → Option β) (l : List α)
    (h : ∀ a, p a = false → f a = none) :
    (l.filter p).findSome? f = l.findSome? f := by
  induction l with
  | nil => rfl
  | cons a t ih =>
    rw [List.filter_cons]
    cases hp : p a
    · rw [if_neg (by simp [hp]), List.findSome?_cons, h a hp, ih]
    · rw [if_pos rfl, List.findSome?_cons, List.findSome?_cons, ih]

/-! ### Equal-bounds windows (C4) and malformed windows (C5) -/

/-- A window whose two bounds parse to the same minute value
(`close === open` in `isOpenInRanges`). -/
def eqBoundsWindow (r : TimeRange) : Bool :=
  jeq (minutesFromHHMM r.2) (minutesFromHHMM r.1)

theorem eqBounds_rangeOpenTest (r : TimeRange) (m : Int)
    (h : eqBoundsWindow r = true) : rangeOpenTest r m = false := by
  unfold eqBoundsWindow at h
  simp [rangeOpenTest, h]

theorem eqBounds_spillTest (r : TimeRange) (m : Int)
    (h : eqBoundsWindow r = true) : spillTest r m = false := by
  unfold eqBoundsWindow at h
  rcases hc : minutesFromHHMM r.2 with _ | cv <;>
    rcases ho : minutesFromHHMM r.1 with _ | ov <;>
      rw [hc, ho] at h <;>
        simp [jeq] at h
  have hcv : cv = ov := h
  subst hcv
  simp [spillTest, hc, ho, jlt]

/-- A window both of whose bounds parse (`parseHHMM` succeeds on both in
`getVenueCloseAt`). -/
def parsesBoth (r : TimeRange) : Bool :=
  (minutesFromHHMM r.1).isSome && (minutesFromHHMM r.2).isSome

/-- A window whose open bound parses. -/
def parsesOpenTime (r : TimeRange) : Bool :=
  (minutesFromHHMM r.1).isSome

theorem noParse_closeForRange (atd : Int) (r : TimeRange)
    (h : parsesBoth r = false) : closeForRange atd r = none := by
  rcases ho : minutesFromHHMM r.1 with _ | o
  · simp [closeForRange, withTime_eq, ho]
  rcases hc : minutesFromHHMM r.2 with _ | c
  · simp [closeForRange, withTime_eq, ho, hc]
  · exfalso
    simp [parsesBoth, ho, hc] at h

theorem noOpenParse_rangeOpenTest (r : TimeRange) (m : Int)
    (h : parsesOpenTime r = false) : rangeOpenTest r m = false := by
  have ho : minutesFromHHMM r.1 = none := by
    rcases hoo : minutesFromHHMM r.1 with _ | o
    · rfl
    · exfalso; simp [parsesOpenTime, hoo] at h
  rcases hc : minutesFromHHMM r.2 with _ | c <;>
    simp [rangeOpenTest, ho, hc, jeq, jgt, jlt, jge, jle]

theorem noOpenParse_spillTest (r : TimeRange) (m : Int)
    (h : parsesOpenTime r = false) : spillTest r m = false := by
  have ho : minutesFromHHMM r.1 = none := by
    rcases hoo : minutesFromHHMM r.1 with _ | o
    · rfl
    · exfalso; simp [parsesOpenTime, hoo] at h
  rcases hc : minutesFromHHMM r.2 with _ | c <;>
    simp [spillTest, ho, hc, jlt]

/-- A schedule whose only window has equal open and close bounds
(Monday 10:00-10:00).  Monday 11:00 is minute `1440 + 660 = 2100`;
Tuesday 10:00 is minute `2 * 1440 + 600 = 3480`. -/
def eqBoundsHours : Hours := ⟨[(hm 10 0, hm 10 0)], [], [], [], [], [], []⟩

/-- C3.  Cross-midnight window (22:00, 02:00) on Monday: open at Monday
23:30 with closing instant Tuesday 02:00; open at Tuesday 01:30 by
spillover; closed at Tuesday 02:01. -/
theorem crossMidnight_window_behaviour :
    isVenueOpenAt spillHours 2850 = true ∧
    getVenueCloseAt spillHours 2850 = some 3000 ∧
    isVenueOpenAt spillHours 2970 = true ∧
    isVenueOpenAt spillHours 3001 = false := by
  decide

/-- C4.  First half (true): removing equal-bounds windows never changes
`isVenueOpenAt` — such windows contribute no open time there, as the
source comments intend ("Treat as closed").  Second half (the bug): at
Monday 11:00, `getVenueCloseAt` treats the equal-bounds window
(10:00, 10:00) as a 24-hour window (its `close <= open` next-day push
fires on equality, against its own "close earlier than open" comment) and
returns Tuesday 10:00 instead of `null`. -/
theorem equalBounds_contributes_no_open :
    (∀ (hours : Hours) (atd : Int),
      isVenueOpenAt (filterHours (fun r => !eqBoundsWindow r) hours) atd
        = isVenueOpenAt hours atd) ∧
    getVenueCloseAt eqBoundsHours 2100 = some 3480 := by
  constructor
  · intro hours atd
    have h1 :
        ((hours.get (dayKeyFromDate atd)).filter (fun r => !eqBoundsWindow r)).any
            (fun r => rangeOpenTest r (minutesOfDay atd)) =
          (hours.get (dayKeyFromDate atd)).any (fun r => rangeOpenTest r (minutesOfDay atd)) :=
      any_filter_irrel _ _ _ (fun a ha => eqBounds_rangeOpenTest a _ (by simpa using ha))
    have h2 :
        ((hours.get (prevDayKey (dayKeyFromDate atd))).filter (fun r => !eqBoundsWindow r)).any
            (fun r => spillTest r (minutesOfDay atd)) =
          (hours.get (prevDayKey (dayKeyFromDate atd))).any
            (fun r => spillTest r (minutesOfDay atd)) :=
      any_filter_irrel _ _ _ (fun a ha => eqBounds_spillTest a _ (by simpa using ha))
    simp only [isVenueOpenAt, isOpenInRanges, spilloverOpen, filterHours_get, h1, h2]
  · decide

/-- A schedule whose only window has a valid open time and a malformed
(non-numeric) close time. -/
def malformedCloseHours : Hours := ⟨[(hm 10 0, ⟨none, none⟩)], [], [], [], [], [], []⟩

/-- C5, counterexample.  A window with valid open 10:00 and malformed
close is not skipped by `isVenueOpenAt`: at Monday 11:00 the venue
reports open (the `NaN` close falls into the cross-midnight branch, whose
`minutes >= open` test ignores the close), while `getVenueCloseAt` does
skip the window. -/
theorem C5_counterexample :
    isVenueOpenAt malformedCloseHours 2100 = true ∧
    getVenueCloseAt malformedCloseHours 2100 = none := by
  decide

/-- C5, amended.  `getVenueCloseAt` skips every window with a malformed
bound (removing them changes nothing), and `isVenueOpenAt` skips every
window whose *open* bound is malformed; a valid-open/malformed-close
window, however, is treated by `isVenueOpenAt` as open from its open time
until midnight (see `C5_counterexample`).  In all cases the remaining
windows are still evaluated — the scan never aborts. -/
theorem malformed_window_skipping :
    (∀ (hours : Hours) (atd : Int),
      getVenueCloseAt (filterHours parsesBoth hours) atd = getVenueCloseAt hours atd) ∧
    (∀ (hours : Hours) (atd : Int),
      isVenueOpenAt (filterHours parsesOpenTime hours) atd = isVenueOpenAt hours atd) := by
  constructor
  · intro hours atd
    simp only [getVenueCloseAt, filterHours_get]
    exact findSome?_filter_irrel _ _ _ (fun a ha => noParse_closeForRange atd a ha)
  · intro hours atd
    have h1 :
        ((hours.get (dayKeyFromDate atd)).filter parsesOpenTime).any
            (fun r => rangeOpenTest r (minutesOfDay atd)) =
          (hours.get (dayKeyFromDate atd)).any (fun r => rangeOpenTest r (minutesOfDay atd)) :=
      any_filter_irrel _ _ _ (fun a ha => noOpenParse_rangeOpenTest a _ ha)
    have h2 :
        ((hours.get (prevDayKey (dayKeyFromDate atd))).filter parsesOpenTime).any
            (fun r => spillTest r (minutesOfDay atd)) =
          (hours.get (prevDayKey (dayKeyFromDate atd))).any
            (fun r => spillTest r (minutesOfDay atd)) :=
      any_filter_irrel _ _ _ (fun a ha => noOpenParse_spillTest a _ ha)
    simp only [isVenueOpenAt, isOpenInRanges, spilloverOpen, filterHours_get, h1, h2]

/-! ### Midnight-close normalization (C9) -/

/-- Replace the window ("18:00", "00:00") by ("18:00", "24:00"),
leaving every other window unchanged. -/
def midnightCloseSub (r : TimeRange) : TimeRange :=
  if r = (hm 18 0, hm 0 0) then (hm 18 0, hm 24 0) else r

theorem midnightCloseSub_rangeOpenTest (r : TimeRange) (m : Int)
    (hm1 : m < 1440) :
    rangeOpenTest (midnightCloseSub r) m = rangeOpenTest r m := by
  by_cases hr : r = (hm 18 0, hm 0 0)
  · subst hr
    have hlt : decide (m < 1440) = true := decide_eq_true hm1
    simp [midnightCloseSub, rangeOpenTest, minutesFromHHMM, hm, jadd, jmul, jeq, jgt,
      jlt, jge, jle, hlt]
  · rw [midnightCloseSub, if_neg hr]

theorem midnightCloseSub_spillTest (r : TimeRange) (m : Int)
    (hm0 : 0 ≤ m) :
    spillTest (midnightCloseSub r) m = spillTest r m := by
  by_cases hr : r = (hm 18 0, hm 0 0)
  · subst hr
    have hge : decide (m < 0) = false := by simp; omega
    simp [midnightCloseSub, spillTest, minutesFromHHMM, hm, jadd, jmul, jlt, hge]
  · rw [midnightCloseSub, if_neg hr]

theorem midnightCloseSub_closeForRange (atd : Int) (r : TimeRange) :
    closeForRange atd (midnightCloseSub r) = closeForRange atd r := by
  by_cases hr : r = (hm 18 0, hm 0 0)
  · subst hr
    have h1 : withTime atd (hm 18 0) = some (dayStart atd + 1080) := by
      rw [withTime_eq]; norm_num [minutesFromHHMM, hm, jadd, jmul]
    have h2 : withTime atd (hm 0 0) = some (dayStart atd + 0) := by
      rw [withTime_eq]; norm_num [minutesFromHHMM, hm, jadd, jmul]
    have h3 : withTime atd (hm 24 0) = some (dayStart atd + 1440) := by
      rw [withTime_eq]; norm_num [minutesFromHHMM, hm, jadd, jmul]
    simp [midnightCloseSub, closeForRange, h1, h2, h3, isWithinRange]
  · rw [midnightCloseSub, if_neg hr]

/-- Schedule with the single window ("18:00", "00:00") on Monday. -/
def midnight00Hours : Hours := ⟨[(hm 18 0, hm 0 0)], [], [], [], [], [], []⟩

/-- The same schedule with the close written as "24:00". -/
def midnight24Hours : Hours := ⟨[(hm 18 0, hm 24 0)], [], [], [], [], [], []⟩

/-- C9.  Rewriting every ("18:00", "00:00") window of any schedule to
("18:00", "24:00") changes neither `isVenueOpenAt` nor `getVenueCloseAt`
at any instant, and under either encoding the venue is open at Monday
23:59 (minute `1440 + 1439 = 2879`). -/
theorem midnightClose_normalization :
    (∀ (hours : Hours) (atd : Int),
      isVenueOpenAt (mapHours midnightCloseSub hours) atd = isVenueOpenAt hours atd ∧
      getVenueCloseAt (mapHours midnightCloseSub hours) atd = getVenueCloseAt hours atd) ∧
    mapHours midnightCloseSub midnight00Hours = midnight24Hours ∧
    isVenueOpenAt midnight00Hours 2879 = true ∧
    isVenueOpenAt midnight24Hours 2879 = true := by
  refine ⟨fun hours atd => ⟨?_, ?_⟩, by decide, by decide, by decide⟩
  · have h1 :
        ((hours.get (dayKeyFromDate atd)).map midnightCloseSub).any
            (fun r => rangeOpenTest r (minutesOfDay atd)) =
          (hours.get (dayKeyFromDate atd)).any (fun r => rangeOpenTest r (minutesOfDay atd)) := by
      rw [List.any_map]
      congr 1
      funext r
      exact midnightCloseSub_rangeOpenTest r _ (minutesOfDay_lt atd)
    have h2 :
        ((hours.get (prevDayKey (dayKeyFromDate atd))).map midnightCloseSub).any
            (fun r => spillTest r (minutesOfDay atd)) =
          (hours.get (prevDayKey (dayKeyFromDate atd))).any
            (fun r => spillTest r (minutesOfDay atd)) := by
      rw [List.any_map]
      congr 1
      funext r
      exact midnightCloseSub_spillTest r _ (minutesOfDay_nonneg atd)
    simp only [isVenueOpenAt, isOpenInRanges, spilloverOpen, mapHours_get, h1, h2]
  · simp only [getVenueCloseAt, mapHours_get]
    rw [List.findSome?_map]
    congr 1
    funext r
    exact midnightCloseSub_closeForRange atd r

/-! ### Scoring decomposition (C2) -/

/-- `openScore` as the spec words it: `clamp01(max(0, C − T) / 240)` when
a closing instant `C` is determinable at instant `T`; `0` when schedule
data is present but the instant is inside no window; the neutral `0.5`
when the venue has no schedule data at all. -/
def openScoreSpec (v : Venue) (atDate : Int) : ℚ :=
  match v.hours with
  | none => 0.5
  | some hrs =>
    match getVenueCloseAt hrs atDate with
    | some closeAt => clamp01 (((max 0 (closeAt - atDate) : Int) : ℚ) / 240)
    | none => 0

/-- `dealScore` as the spec words it: `1` exactly when the deal-platform
flag is set. -/
def dealScoreSpec (v : Venue) : ℚ :=
  if v.onEatClub then 1 else 0

/-- Whether the venue has a (non-blank) website link. -/
def hasWebsiteLink (v : Venue) : Bool := nonBlank v.website

/-- Whether the venue has a (non-blank) booking link. -/
def hasBookingLink (v : Venue) : Bool :=
  match v.bookingUrl with
  | none => false
  | some s => nonBlank s

/-- `actionabilityScore` as the spec words it:
`clamp01((hasWebsite + hasBookingLink) / 2)`. -/
def actionabilityScoreSpec (v : Venue) : ℚ :=
  clamp01 (((if hasWebsiteLink v then 1 else 0) + (if hasBookingLink v then 1 else 0)) / 2)

/-- Schedule with the single window 18:00-22:00 on Monday; at Monday
20:00 (minute `1440 + 1200 = 2640`) it closes in exactly 120 minutes. -/
def dealHours : Hours := ⟨[(hm 18 0, hm 22 0)], [], [], [], [], [], []⟩

/-- A venue closing in 120 minutes at Monday 20:00, on the deal platform,
with a website and no booking link. -/
def dealVenue : Venue :=
  { id := "d1", name := "Deal", category := .Restaurant, suburb := "Sydney",
    website := "https://example.com", bookingUrl := none, hours := some dealHours,
    onEatClub := true }

/-- C2.  `scoreVenue` is exactly the weighted sum
`0.60 * openScore + 0.25 * dealScore + 0.15 * actionabilityScore` of the
three spec-side component scores, and the venue of the spec's worked
example (closing in 120 minutes, on the deal platform, website only)
scores exactly `0.625`. -/
theorem scoreVenue_decomposition :
    (∀ (v : Venue) (atDate : Int),
      scoreVenue v atDate =
        0.6 * openScoreSpec v atDate + 0.25 * dealScoreSpec v
          + 0.15 * actionabilityScoreSpec v) ∧
    scoreVenue dealVenue 2640 = 0.625 := by
  constructor
  · intro v atDate
    rfl
  · have hclose : getVenueCloseAt dealHours 2640 = some 2760 := by decide
    have hweb : nonBlank "https://example.com" = true := by decide
    norm_num [scoreVenue, dealVenue, hclose, hweb, clamp01]

/-! ### Selection lemmas (C6, C10) -/

theorem pickRandom_mem {α : Type} {arr : List α} {rnd : ℚ} {v : α}
    (h : pickRandom arr rnd = some v) : v ∈ arr :=
  List.getElem?_mem h

theorem pickRandom_isSome {α : Type} (arr : List α) (rnd : ℚ)
    (h0 : 0 ≤ rnd) (h1 : rnd < 1) (hne : arr ≠ []) :
    ∃ v, pickRandom arr rnd = some v := by
  have hlen : 0 < arr.length := List.length_pos.mpr hne
  have hfl0 : 0 ≤ ⌊rnd * (arr.length : ℚ)⌋ :=
    Int.floor_nonneg.mpr (mul_nonneg h0 (by positivity))
  have hflt : ⌊rnd * (arr.length : ℚ)⌋ < (arr.length : ℤ) := by
    apply Int.floor_lt.mpr
    push_cast
    exact mul_lt_of_lt_one_left (by exact_mod_cast hlen) h1
  have hidx : (⌊rnd * (arr.length : ℚ)⌋).toNat < arr.length := by
    rw [Int.toNat_lt hfl0]
    exact_mod_cast hflt
  exact ⟨_, by unfold pickRandom; rw [List.getElem?_eq_getElem hidx]⟩

theorem scoredSorted_length (list : List Venue) (atd : Int) :
    (scoredSorted list atd).length = list.length := by
  unfold scoredSorted
  rw [(List.perm_insertionSort _ _).length_eq, List.length_map]

theorem topScored_length (list : List Venue) (atd : Int) (f : ℚ) :
    (topScored list atd f).length = min (topCount list.length f) list.length := by
  unfold topScored
  rw [List.length_map, List.length_take, scoredSorted_length]

theorem topScored_subset {list : List Venue} {atd : Int} {f : ℚ} {v : Venue}
    (h : v ∈ topScored list atd f) : v ∈ list := by
  unfold topScored at h
  obtain ⟨p, hp, hfst⟩ := List.mem_map.mp h
  have hp2 : p ∈ scoredSorted list atd := List.mem_of_mem_take hp
  have hp3 : p ∈ list.map (fun v => (v, scoreVenue v atd)) :=
    (List.perm_insertionSort _ _).mem_iff.mp hp2
  obtain ⟨w, hw, hwp⟩ := List.mem_map.mp hp3
  rw [← hfst, ← hwp]
  exact hw

theorem pickFromTopScored_mem_top {list : List Venue} {atd : Int} {f rnd : ℚ} {v : Venue}
    (h : pickFromTopScored list atd f rnd = some v) : v ∈ topScored list atd f :=
  pickRandom_mem h

theorem pickFromTopScored_mem_pool {list : List Venue} {atd : Int} {f rnd : ℚ} {v : Venue}
    (h : pickFromTopScored list atd f rnd = some v) : v ∈ list :=
  topScored_subset (pickFromTopScored_mem_top h)

theorem topCount_pos (len : Nat) (f : ℚ) : 1 ≤ topCount len f :=
  le_max_left 1 _

/-- C6.  With a random draw in `[0, 1)` over a non-empty pool,
`pickFromTopScored` (at the fraction `0.25` all call sites use) always
returns some venue from the top slice of the descending-by-score sort;
the slice has exactly `max 1 ⌈len * 0.25⌉` venues (capped by the pool
size), every venue inside the slice scores at least as much as every
venue outside it, pools of size 1-3 have a slice of exactly 1, and a pool
of 8 has a slice of exactly 2. -/
theorem pickFromTopScored_top_quartile (list : List Venue) (atd : Int) (rnd : ℚ)
    (h0 : 0 ≤ rnd) (h1 : rnd < 1) (hne : list ≠ []) :
    (∃ v, pickFromTopScored list atd 0.25 rnd = some v ∧ v ∈ topScored list atd 0.25) ∧
    (topScored list atd 0.25).length = min (topCount list.length 0.25) list.length ∧
    (∀ p ∈ (scoredSorted list atd).take (topCount list.length 0.25),
      ∀ q ∈ (scoredSorted list atd).drop (topCount list.length 0.25), q.2 ≤ p.2) ∧
    (list.length ≤ 3 → topCount list.length 0.25 = 1) ∧
    (list.length = 8 → topCount list.length 0.25 = 2) := by
  have hlen : 0 < list.length := List.length_pos.mpr hne
  refine ⟨?_, topScored_length list atd 0.25, ?_, ?_, ?_⟩
  · have htne : topScored list atd 0.25 ≠ [] := by
      rw [← List.length_pos, topScored_length]
      have := topCount_pos list.length (0.25 : ℚ)
      omega
    obtain ⟨v, hv⟩ := pickRandom_isSome (topScored list atd 0.25) rnd h0 h1 htne
    exact ⟨v, hv, pickRandom_mem hv⟩
  · intro p hp q hq
    haveI : IsTotal (Venue × ℚ) (fun a b => b.2 ≤ a.2) := ⟨fun a b => le_total b.2 a.2⟩
    haveI : IsTrans (Venue × ℚ) (fun a b => b.2 ≤ a.2) :=
      ⟨fun _ _ _ hab hbc => le_trans hbc hab⟩
    have hs : List.Sorted (fun a b : Venue × ℚ => b.2 ≤ a.2) (scoredSorted list atd) :=
      List.sorted_insertionSort _ _
    rw [← List.take_append_drop (topCount list.length 0.25) (scoredSorted list atd)] at hs
    exact (List.pairwise_append.mp hs).2.2 p hp q hq
  · intro h3
    have : list.length = 1 ∨ list.length = 2 ∨ list.length = 3 := by omega
    rcases this with h | h | h <;> rw [h] <;> unfold topCount <;>
      norm_num [Int.ceil_le]
  · intro h8
    rw [h8]
    unfold topCount
    norm_num
    rfl

/-- A minimal venue with a given id: no schedule data, no links, not on
the deal platform. -/
def bareVenue (i : String) : Venue :=
  { id := i, name := i, category := .Restaurant, suburb := "Sydney",
    website := "", bookingUrl := none, hours := none }

/-- C6, witness at a concrete two-venue pool with draw 0. -/
theorem pickFromTopScored_top_quartile_witness :
    (∃ v, pickFromTopScored [bareVenue "a", bareVenue "b"] 0 0.25 0 = some v ∧
      v ∈ topScored [bareVenue "a", bareVenue "b"] 0 0.25) ∧
    (topScored [bareVenue "a", bareVenue "b"] 0 0.25).length =
      min (topCount [bareVenue "a", bareVenue "b"].length 0.25)
        [bareVenue "a", bareVenue "b"].length ∧
    (∀ p ∈ (scoredSorted [bareVenue "a", bareVenue "b"] 0).take
        (topCount [bareVenue "a", bareVenue "b"].length 0.25),
      ∀ q ∈ (scoredSorted [bareVenue "a", bareVenue "b"] 0).drop
        (topCount [bareVenue "a", bareVenue "b"].length 0.25), q.2 ≤ p.2) ∧
    ([bareVenue "a", bareVenue "b"].length ≤ 3 →
      topCount [bareVenue "a", bareVenue "b"].length 0.25 = 1) ∧
    ([bareVenue "a", bareVenue "b"].length = 8 →
      topCount [bareVenue "a", bareVenue "b"].length 0.25 = 2) :=
  pickFromTopScored_top_quartile [bareVenue "a", bareVenue "b"] 0 0
    (by norm_num) (by norm_num) (by decide)

/-- C10.  With a random draw in `[0, 1)`, `pickFromTopScored` over a
non-empty pool returns some venue belonging to that pool; over the empty
pool the `arr[Math.floor(rnd * 0)]` access is out of bounds and yields no
venue (`undefined`, here `none`). -/
theorem pickFromTopScored_pool_safety (list : List Venue) (atd : Int) (f rnd : ℚ)
    (h0 : 0 ≤ rnd) (h1 : rnd < 1) :
    (list ≠ [] → ∃ v, pickFromTopScored list atd f rnd = some v ∧ v ∈ list) ∧
    pickFromTopScored [] atd f rnd = none := by
  constructor
  · intro hne
    have htne : topScored list atd f ≠ [] := by
      rw [← List.length_pos, topScored_length]
      have h1' := topCount_pos list.length f
      have h2' := List.length_pos.mpr hne
      omega
    obtain ⟨v, hv⟩ := pickRandom_isSome _ rnd h0 h1 htne
    exact ⟨v, hv, pickFromTopScored_mem_pool hv⟩
  · have hts : topScored [] atd f = [] := by
      simp [topScored, scoredSorted, List.insertionSort]
    unfold pickFromTopScored
    rw [hts]
    simp [pickRandom]

/-- C10, witness at a concrete singleton pool and the empty pool. -/
theorem pickFromTopScored_pool_safety_witness :
    (∃ v, pickFromTopScored [bareVenue "a"] 0 0.25 0 = some v ∧ v ∈ [bareVenue "a"]) ∧
    pickFromTopScored [] 0 0.25 0 = none :=
  ⟨(pickFromTopScored_pool_safety [bareVenue "a"] 0 0.25 0 (by norm_num) (by norm_num)).1
      (by decide),
    (pickFromTopScored_pool_safety [] 0 0.25 0 (by norm_num) (by norm_num)).2⟩

/-! ### Itinerary composition (C7, C8) -/

/-- C7.  Whenever `planMyNight` produces a plan and the Activity pool
contains at least one venue whose id differs from the Food pick's id, the
Activity pick's id differs from the Food pick's id: the Activity pick is
drawn from the pool filtered against the Food id, and the unfiltered
fallback only fires when that filter empties the pool. -/
theorem planMyNight_activity_ne_food (R A B : List Venue) (atd : Int) (r1 r2 r3 : ℚ)
    (food act bar : Venue)
    (hp : planMyNight R A B atd r1 r2 r3 = some (food, act, bar))
    (hex : ∃ v ∈ A, v.id ≠ food.id) :
    act.id ≠ food.id := by
  unfold planMyNight at hp
  split at hp
  · exact absurd hp (by simp)
  split at hp
  · exact absurd hp (by simp)
  rename_i restaurant hr
  split at hp
  · exact absurd hp (by simp)
  rename_i activity ha
  split at hp
  · exact absurd hp (by simp)
  rename_i bar2 hb
  obtain ⟨hfood, hact, hbar⟩ : restaurant = food ∧ activity = act ∧ bar2 = bar := by
    simpa using hp
  obtain ⟨w, hwA, hwid⟩ := hex
  have hwid2 : w.id ≠ restaurant.id := by
    rw [hfood]
    exact hwid
  have hpw : (!([restaurant.id].contains w.id)) = true := by
    simp [List.contains]
    exact hwid2
  have hmemf : w ∈ A.filter (fun v => !([restaurant.id].contains v.id)) :=
    List.mem_filter.mpr ⟨hwA, hpw⟩
  have hcond : ((A.filter (fun v => !([restaurant.id].contains v.id))).length != 0) = true := by
    simpa using ⟨w, hwA, hwid2⟩
  have hfil : noDupPool A [restaurant.id]
      = A.filter (fun v => !([restaurant.id].contains v.id)) := by
    unfold noDupPool
    rw [if_pos hcond]
  have hmem : activity ∈ noDupPool A [restaurant.id] := pickFromTopScored_mem_pool ha
  rw [hfil] at hmem
  have hpa := (List.mem_filter.mp hmem).2
  rw [← hfood, ← hact]
  simpa [List.contains] using hpa

/-- C8.  If any of the three category pools is empty, `planMyNight`
fails as a whole: the guard fires before any pick and no partial plan is
produced (`none` carries no pick for any category). -/
theorem planMyNight_fails_on_empty_pool (R A B : List Venue) (atd : Int) (r1 r2 r3 : ℚ)
    (h : R = [] ∨ A = [] ∨ B = []) :
    planMyNight R A B atd r1 r2 r3 = none := by
  unfold planMyNight
  rcases h with h | h | h <;> subst h <;> simp

/-- A pick from a singleton pool with draw 0 is its sole member. -/
theorem pickFromTopScored_singleton (v : Venue) (atd : Int) :
    pickFromTopScored [v] atd 0.25 0 = some v := by
  unfold pickFromTopScored topScored scoredSorted topCount pickRandom
  norm_num [List.insertionSort]

/-- C7, witness: concrete singleton pools, so the plan is forced and the
Activity pool has a venue whose id differs from the Food pick. -/
theorem planMyNight_activity_ne_food_witness :
    planMyNight [bareVenue "food-1"] [bareVenue "act-1"] [bareVenue "bar-1"] 0 0 0 0
      = some (bareVenue "food-1", bareVenue "act-1", bareVenue "bar-1") ∧
    (∃ v ∈ [bareVenue "act-1"], v.id ≠ (bareVenue "food-1").id) ∧
    (bareVenue "act-1").id ≠ (bareVenue "food-1").id := by
  have hplan :
      planMyNight [bareVenue "food-1"] [bareVenue "act-1"] [bareVenue "bar-1"] 0 0 0 0
        = some (bareVenue "food-1", bareVenue "act-1", bareVenue "bar-1") := by
    have h1 : pickFromTopScored [bareVenue "food-1"] 0 0.25 0 = some (bareVenue "food-1") :=
      pickFromTopScored_singleton _ 0
    have hA : noDupPool [bareVenue "act-1"] [(bareVenue "food-1").id] = [bareVenue "act-1"] := by
      decide
    have h2 : pickFromTopScored [bareVenue "act-1"] 0 0.25 0 = some (bareVenue "act-1") :=
      pickFromTopScored_singleton _ 0
    have hB : noDupPool [bareVenue "bar-1"] [(bareVenue "food-1").id, (bareVenue "act-1").id]
        = [bareVenue "bar-1"] := by decide
    have h3 : pickFromTopScored [bareVenue "bar-1"] 0 0.25 0 = some (bareVenue "bar-1") :=
      pickFromTopScored_singleton _ 0
    unfold planMyNight
    rw [if_neg (by decide)]
    simp only [hA, hB, h1, h2, h3]
  have hex : ∃ v ∈ [bareVenue "act-1"], v.id ≠ (bareVenue "food-1").id :=
    ⟨bareVenue "act-1", by simp, by decide⟩
  exact ⟨hplan, hex,
    planMyNight_activity_ne_food _ _ _ _ _ _ _ _ _ _ hplan hex⟩

/-- C8, witness: an empty Activity pool aborts the plan. -/
theorem planMyNight_fails_on_empty_pool_witness :
    planMyNight [bareVenue "food-1"] [] [bareVenue "bar-1"] 0 0 0 0 = none :=
  planMyNight_fails_on_empty_pool _ _ _ _ _ _ _ (Or.inr (Or.inl rfl))
